import Mathlib

/-!
Formal model of the `iota-mam-protobuf3` size-accounting pass
(`src/iota-mam-protobuf3/src/command/sizeof.rs`) and of the WASM binding
`Address` type (`src/bindings/wasm/src/types/mod.rs`).

The Sizeof `Context` and its operation implementations are translated
directly from the source.  The value types, the `sizeof_sizet` encoding
length function, the mss/ntru constants and the Wrap pass are not part of
`src/`; they are modelled from the specification (see the doc comments on
the corresponding definitions).
-/

namespace Streams

/-! ## Trinary value types (modelled from the spec, §3) -/

/-- Modelled from the spec: a sequence of trits (`Trits` from
`iota-mam-core`, not in `src/`); the Sizeof pass only ever inspects its
trit length via `size()`. Trit values are balanced-ternary digits. -/
structure Trits where
  data : List Int
deriving DecidableEq

/-- Trit length of a trit sequence (`Trits::size`). -/
def Trits.size (t : Trits) : Nat := t.data.length

/-- Modelled from the spec: a signed integer encoded in exactly 3 trits
(`Trint3`, not in `src/`). Its payload never influences the Sizeof pass. -/
structure Trint3 where
  val : Int
deriving DecidableEq

/-- Modelled from the spec: a non-negative integer with variable-width
trinary encoding (`Size(pub usize)`, not in `src/`); `val` is the Rust
field `.0`. -/
structure Size where
  val : Nat
deriving DecidableEq

/-- Modelled from the spec: a variable-length, self-describing trit
sequence (`Trytes(pub Trits)`, not in `src/`); `trits` is the Rust
field `.0`. -/
structure Trytes where
  trits : Trits
deriving DecidableEq

/-- Modelled from the spec: a fixed-length trit sequence with no length
prefix on the wire (`NTrytes(pub Trits)`, not in `src/`); `trits` is the
Rust field `.0`. -/
structure NTrytes where
  trits : Trits
deriving DecidableEq

/-- Modelled from the spec: a placeholder for an authentication tag of a
declared trit length (`Mac(pub usize)`, not in `src/`); `val` is the Rust
field `.0`, the declared length in trits. -/
structure Mac where
  val : Nat
deriving DecidableEq

/-- Modelled from the spec: a wrapper marking a value available to the
computation but never placed on the wire (`External<T>`, not in `src/`);
`val` is the Rust field `.0`. -/
structure External (T : Type) where
  val : T
deriving DecidableEq

/-- Modelled from the spec: marker meaning that the signed hash was already
folded into sponge state; only the detachable signature trits remain
(`MssHashSig`, not in `src/`). -/
structure MssHashSig where
deriving DecidableEq

/-! ## Size encoding length (modelled from the spec, §6) -/

/-- Fuel-indexed helper computing the number of base-27 digits (trytes)
needed to represent `n`, with 0 digits for `n = 0`. Structural recursion on
the fuel keeps it kernel-evaluable; `fuel ≥ n` suffices since `n / 27 < n`
for `n ≠ 0`. -/
def size_trytes_go : Nat → Nat → Nat
  | 0, _ => 0
  | fuel + 1, n => if n = 0 then 0 else size_trytes_go fuel (n / 27) + 1

/-- Number of trytes needed to represent `n` in base 27 (0 for `n = 0`). -/
def size_trytes (n : Nat) : Nat := size_trytes_go n n

/-- Modelled from the spec: `sizeof_sizet` (from `crate::types`, not in
`src/`) is specified only as the deterministic, monotonic trit length of
the variable-width encoding of a non-negative integer (§6). We model the
encoding as one leading tryte holding the number `d` of value trytes,
followed by those `d` base-27 trytes, hence `3 * (d + 1)` trits. -/
def sizeof_sizet (n : Nat) : Nat := 3 * (size_trytes n + 1)

/-! ## MSS signature scheme interface (modelled from the spec, §6) -/

namespace mss

/-- Modelled from the spec: fixed MSS public key size in trits
(`mss::PK_SIZE`, not in `src/`; the spec fixes only that it is a
constant). -/
def PK_SIZE : Nat := 243

/-- Modelled from the spec: required trit length of a hash signed with MSS
(`mss::HASH_SIZE`, not in `src/`; the spec fixes only that it is a
constant). -/
def HASH_SIZE : Nat := 243

/-- Modelled from the spec: MSS signature trit length as a deterministic
function of the signer's Merkle tree height (`mss::sig_size`, not in
`src/`; the spec fixes only determinism in the height, §6). We model it as
a one-time signature part plus one authentication-path hash per level. -/
def sig_size (height : Nat) : Nat := 13122 + 243 * height

/-- Modelled from the spec: MSS private key material; the Sizeof pass only
queries the remaining one-time key count (`private_keys_left()`) and the
Merkle tree height (`height()`). -/
structure PrivateKey where
  private_keys_left : Nat
  height : Nat
deriving DecidableEq

/-- Modelled from the spec: an MSS public key; the Sizeof pass only
inspects its trit representation via `trits()`. -/
structure PublicKey where
  trits : Trits
deriving DecidableEq

end mss

/-! ## NTRU key encapsulation interface (modelled from the spec, §6) -/

namespace ntru

/-- Modelled from the spec: fixed NTRU public key size in trits
(`ntru::PK_SIZE`, not in `src/`). -/
def PK_SIZE : Nat := 9216

/-- Modelled from the spec: fixed trit length of a secret to be
encapsulated (`ntru::KEY_SIZE`, not in `src/`). -/
def KEY_SIZE : Nat := 243

/-- Modelled from the spec: fixed trit length of an encapsulated
ciphertext (`ntru::EKEY_SIZE`, not in `src/`). -/
def EKEY_SIZE : Nat := 9216

/-- Modelled from the spec: an NTRU public key; the Sizeof pass only
inspects its trit representation via `trits()`. -/
structure PublicKey where
  trits : Trits
deriving DecidableEq

end ntru

/-! ## Sizeof pass: `Context` (src/iota-mam-protobuf3/src/command/sizeof.rs)

Each Rust operation has type `fn(&mut self, ...) -> Fallible<&mut Self>`:
the context is mutated in place and an error may be reported.  We model an
operation as `Context → Context × Option String`: the first component is
the context as left by the call (mutations performed before an early
`ensure!` return persist), the second is `some message` exactly when the
Rust call returns `Err`.  Rust method overloading is resolved by suffixing
the operated value type to the method name. -/

/-- Message size counting context. -/
structure Context where
  /-- The current message size in trits. -/
  size : Nat
deriving DecidableEq

/-- Creates a new Context (`Context::new`). -/
def Context.new : Context := { size := 0 }

/-- Returns calculated message size (`Context::get_size`). -/
def Context.get_size (c : Context) : Nat := c.size

/-- All Trint3 values are encoded with 3 trits (`Absorb<&Trint3>`). -/
def Context.absorb_trint3 (c : Context) (_trint3 : Trint3) :
    Context × Option String :=
  ({ size := c.size + 3 }, none)

/-- Size has var-size encoding (`Absorb<&Size>`). -/
def Context.absorb_size (c : Context) (s : Size) : Context × Option String :=
  ({ size := c.size + sizeof_sizet s.val }, none)

/-- External values are not encoded in the trinary stream
(`Absorb<&External<T>>`, a no-op for every `T`; instantiated at
`NTrytes`). -/
def Context.absorb_external_ntrytes (c : Context) (_external : External NTrytes) :
    Context × Option String :=
  (c, none)

/-- A `trytes` value has variable size thus the size is encoded before the content
trytes (`Absorb<&Trytes>`). -/
def Context.absorb_trytes (c : Context) (trytes : Trytes) :
    Context × Option String :=
  if trytes.trits.size % 3 = 0 then
    ({ size := c.size + (sizeof_sizet (trytes.trits.size / 3) + trytes.trits.size) },
      none)
  else
    (c, some "Trit size of `trytes` must be a multiple of 3.")

/-- A `tryte [n]` value is fixed-size and is encoded with `3 * n` trits
(`Absorb<&NTrytes>`). -/
def Context.absorb_ntrytes (c : Context) (ntrytes : NTrytes) :
    Context × Option String :=
  if ntrytes.trits.size % 3 = 0 then
    ({ size := c.size + ntrytes.trits.size }, none)
  else
    (c, some "Trit size of `tryte [n]` must be a multiple of 3.")

/-- MSS public key has fixed size (`Absorb<&mss::PublicKey>`). -/
def Context.absorb_mss_pk (c : Context) (pk : mss.PublicKey) :
    Context × Option String :=
  if pk.trits.size = mss.PK_SIZE then
    ({ size := c.size + mss.PK_SIZE }, none)
  else
    (c, some "ensure failed: pk.trits().size() == mss::PK_SIZE")

/-- NTRU public key has fixed size (`Absorb<&ntru::PublicKey>`). -/
def Context.absorb_ntru_pk (c : Context) (pk : ntru.PublicKey) :
    Context × Option String :=
  if pk.trits.size = ntru.PK_SIZE then
    ({ size := c.size + ntru.PK_SIZE }, none)
  else
    (c, some "ensure failed: pk.trits().size() == ntru::PK_SIZE")

/-- External values are not encoded (`Squeeze<&External<NTrytes>>`). -/
def Context.squeeze_external_ntrytes (c : Context)
    (_external_ntrytes : External NTrytes) : Context × Option String :=
  (c, none)

/-- External values are not encoded (`Squeeze<&External<Mac>>`). -/
def Context.squeeze_external_mac (c : Context) (_mac : External Mac) :
    Context × Option String :=
  (c, none)

/-- Mac is just like NTrytes (`Squeeze<&Mac>`). -/
def Context.squeeze_mac (c : Context) (mac : Mac) : Context × Option String :=
  if mac.val % 3 = 0 then
    ({ size := c.size + mac.val }, none)
  else
    (c, some "Trit size of `mac` must be a multiple of 3.")

/-- Mask Trint3 (`Mask<&Trint3>`). -/
def Context.mask_trint3 (c : Context) (_val : Trint3) :
    Context × Option String :=
  ({ size := c.size + 3 }, none)

/-- Mask Size (`Mask<&Size>`). -/
def Context.mask_size (c : Context) (val : Size) : Context × Option String :=
  ({ size := c.size + sizeof_sizet val.val }, none)

/-- Mask `n` trytes (`Mask<&NTrytes>`; the source performs no
multiple-of-3 validation here). -/
def Context.mask_ntrytes (c : Context) (val : NTrytes) :
    Context × Option String :=
  ({ size := c.size + val.trits.size }, none)

/-- Mask trytes, the size prefixed before the content trytes is also
masked (`Mask<&Trytes>`; the source first masks `Size(len / 3)` via the
`?` operator, then adds the content length). -/
def Context.mask_trytes (c : Context) (trytes : Trytes) :
    Context × Option String :=
  if trytes.trits.size % 3 = 0 then
    match c.mask_size { val := trytes.trits.size / 3 } with
    | (c1, none) => ({ size := c1.size + trytes.trits.size }, none)
    | (c1, some e) => (c1, some e)
  else
    (c, some "Trit size of `trytes` must be a multiple of 3:.")

/-- Mask an NTRU public key (`Mask<&ntru::PublicKey>`). -/
def Context.mask_ntru_pk (c : Context) (ntru_pk : ntru.PublicKey) :
    Context × Option String :=
  if ntru_pk.trits.size = ntru.PK_SIZE then
    ({ size := c.size + ntru.PK_SIZE }, none)
  else
    (c, some "ensure failed: ntru_pk.trits().size() == ntru::PK_SIZE")

/-- Mask an MSS public key (`Mask<&mss::PublicKey>`). -/
def Context.mask_mss_pk (c : Context) (mss_pk : mss.PublicKey) :
    Context × Option String :=
  if mss_pk.trits.size = mss.PK_SIZE then
    ({ size := c.size + mss.PK_SIZE }, none)
  else
    (c, some "ensure failed: mss_pk.trits().size() == mss::PK_SIZE")

/-- Skipped values are just encoded; all Trint3 values are encoded with 3
trits (`Skip<&Trint3>`). -/
def Context.skip_trint3 (c : Context) (_trint3 : Trint3) :
    Context × Option String :=
  ({ size := c.size + 3 }, none)

/-- Size has var-size encoding (`Skip<&Size>`). -/
def Context.skip_size (c : Context) (s : Size) : Context × Option String :=
  ({ size := c.size + sizeof_sizet s.val }, none)

/-- A `trytes` value is encoded with `sizeof_sizet(n) + 3 * n` trits
(`Skip<&Trytes>`). -/
def Context.skip_trytes (c : Context) (trytes : Trytes) :
    Context × Option String :=
  if trytes.trits.size % 3 = 0 then
    ({ size := c.size + (sizeof_sizet (trytes.trits.size / 3) + trytes.trits.size) },
      none)
  else
    (c, some "Trit size of `trytes` must be a multiple of 3.")

/-- A `tryte [n]` value is encoded with `3 * n` trits (`Skip<&NTrytes>`). -/
def Context.skip_ntrytes (c : Context) (ntrytes : NTrytes) :
    Context × Option String :=
  if ntrytes.trits.size % 3 = 0 then
    ({ size := c.size + ntrytes.trits.size }, none)
  else
    (c, some "Trit size of `tryte [n]` must be a multiple of 3.")

/-- Commit costs nothing in the trinary stream (`Commit`). -/
def Context.commit (c : Context) : Context × Option String :=
  (c, none)

/-- Signature size depends on Merkle tree height
(`Mssig<&mss::PrivateKey, &External<NTrytes>>`). -/
def Context.mssig_external_ntrytes (c : Context) (sk : mss.PrivateKey)
    (hash : External NTrytes) : Context × Option String :=
  if mss.HASH_SIZE = hash.val.trits.size then
    if sk.private_keys_left > 0 then
      ({ size := c.size + mss.sig_size sk.height }, none)
    else
      (c, some "All WOTS private keys in MSS Merkle tree have been exhausted, nothing to sign hash with.")
  else
    (c, some "Trit size of `external tryte hash[n]` to be signed with MSS must be equal mss::HASH_SIZE trits.")

/-- Signature size depends on Merkle tree height
(`Mssig<&mss::PrivateKey, &External<Mac>>`). -/
def Context.mssig_external_mac (c : Context) (sk : mss.PrivateKey)
    (hash : External Mac) : Context × Option String :=
  if mss.HASH_SIZE = hash.val.val then
    if sk.private_keys_left > 0 then
      ({ size := c.size + mss.sig_size sk.height }, none)
    else
      (c, some "All WOTS private keys in MSS Merkle tree have been exhausted, nothing to sign hash with.")
  else
    (c, some "Trit size of `external tryte hash[n]` to be signed with MSS must be equal mss::HASH_SIZE trits.")

/-- In `Mssig<&mss::PrivateKey, MssHashSig>`, squeeze external and commit
cost nothing in the stream; the source performs no key-exhaustion check
in this variant. -/
def Context.mssig_hashsig (c : Context) (sk : mss.PrivateKey)
    (_hash : MssHashSig) : Context × Option String :=
  ({ size := c.size + mss.sig_size sk.height }, none)

/-- Sizeof encapsulated secret is fixed
(`Ntrukem<&ntru::PublicKey, &NTrytes>`; the public key is not
validated). -/
def Context.ntrukem (c : Context) (_key : ntru.PublicKey) (secret : NTrytes) :
    Context × Option String :=
  if ntru.KEY_SIZE = secret.trits.size then
    ({ size := c.size + ntru.EKEY_SIZE }, none)
  else
    (c, some "Trit size of `external tryte secret[n]` to be encapsulated with NTRU must be equal ntru::KEY_SIZE trits.")

/-! ## Message specs as operation trees

A message spec is a function written generically against the operation
capabilities and instantiated per pass (§2, §4.2).  We embed the sequence
of operations a spec instantiation performs as a tree: one leaf per
operation implementation of the Sizeof context, `seq` for sequencing,
`nil` for the empty spec, and `fork` for the `Fork` modifier (its
continuation is itself a spec).  The `Repeated` modifier folds its
per-item handler over an iterator and is represented by the corresponding
`seq` chain; the `Dump` diagnostic logs the current size and changes no
state, so it is a `nil`-like leaf; the `AbsorbFallback`/`SkipFallback`
and `Join` impls delegate to link types outside this repository and are
not represented. -/

inductive Spec where
  | nil : Spec
  | seq : Spec → Spec → Spec
  | fork : Spec → Spec
  | commit : Spec
  | dump : Spec
  | absorbTrint3 : Trint3 → Spec
  | absorbSize : Size → Spec
  | absorbExternalNTrytes : External NTrytes → Spec
  | absorbTrytes : Trytes → Spec
  | absorbNTrytes : NTrytes → Spec
  | absorbMssPk : mss.PublicKey → Spec
  | absorbNtruPk : ntru.PublicKey → Spec
  | squeezeExternalNTrytes : External NTrytes → Spec
  | squeezeExternalMac : External Mac → Spec
  | squeezeMac : Mac → Spec
  | maskTrint3 : Trint3 → Spec
  | maskSize : Size → Spec
  | maskNTrytes : NTrytes → Spec
  | maskTrytes : Trytes → Spec
  | maskNtruPk : ntru.PublicKey → Spec
  | maskMssPk : mss.PublicKey → Spec
  | skipTrint3 : Trint3 → Spec
  | skipSize : Size → Spec
  | skipTrytes : Trytes → Spec
  | skipNTrytes : NTrytes → Spec
  | mssigExternalNTrytes : mss.PrivateKey → External NTrytes → Spec
  | mssigExternalMac : mss.PrivateKey → External Mac → Spec
  | mssigHashSig : mss.PrivateKey → MssHashSig → Spec
  | ntrukem : ntru.PublicKey → NTrytes → Spec

/-- Runs a spec against the Sizeof context.  Sequencing follows the `?`
operator: the first error aborts the rest of the spec, keeping the context
as the failing operation left it.  `Fork` runs its continuation on the
context itself (forks cost nothing in the trinary stream). -/
def runSizeof : Spec → Context → Context × Option String
  | .nil, c => (c, none)
  | .seq a b, c =>
    match runSizeof a c with
    | (c1, none) => runSizeof b c1
    | (c1, some e) => (c1, some e)
  | .fork sub, c => runSizeof sub c
  | .commit, c => c.commit
  | .dump, c => (c, none)
  | .absorbTrint3 v, c => c.absorb_trint3 v
  | .absorbSize v, c => c.absorb_size v
  | .absorbExternalNTrytes v, c => c.absorb_external_ntrytes v
  | .absorbTrytes v, c => c.absorb_trytes v
  | .absorbNTrytes v, c => c.absorb_ntrytes v
  | .absorbMssPk v, c => c.absorb_mss_pk v
  | .absorbNtruPk v, c => c.absorb_ntru_pk v
  | .squeezeExternalNTrytes v, c => c.squeeze_external_ntrytes v
  | .squeezeExternalMac v, c => c.squeeze_external_mac v
  | .squeezeMac v, c => c.squeeze_mac v
  | .maskTrint3 v, c => c.mask_trint3 v
  | .maskSize v, c => c.mask_size v
  | .maskNTrytes v, c => c.mask_ntrytes v
  | .maskTrytes v, c => c.mask_trytes v
  | .maskNtruPk v, c => c.mask_ntru_pk v
  | .maskMssPk v, c => c.mask_mss_pk v
  | .skipTrint3 v, c => c.skip_trint3 v
  | .skipSize v, c => c.skip_size v
  | .skipTrytes v, c => c.skip_trytes v
  | .skipNTrytes v, c => c.skip_ntrytes v
  | .mssigExternalNTrytes sk h, c => c.mssig_external_ntrytes sk h
  | .mssigExternalMac sk h, c => c.mssig_external_mac sk h
  | .mssigHashSig sk h, c => c.mssig_hashsig sk h
  | .ntrukem pk s, c => c.ntrukem pk s

/-! ## Wrap pass (modelled from the spec, §4.4 and §6)

The Wrap pass is not part of `src/`; only its buffer-length behaviour is
needed here.  Modelled from the spec: each operation appends the value's
canonical encoding to the output buffer; the wire-format contract (§6)
fixes the encoded lengths, and the preconditions of the Sizeof pass are
mirrored (§4.3).  Trit contents of sponge-derived material (keystreams,
squeezed tags, signatures, ciphertexts) depend on cryptographic state the
spec leaves abstract, so they are modelled as zero trits; only their
lengths are specified. -/

/-- Wrap output context: the buffer of trits written so far.  The sponge
state is omitted: it never influences the number of trits written. -/
structure WrapContext where
  buffer : List Int
deriving DecidableEq

/-- Modelled from the spec: a fresh Wrap context with an empty output
buffer. -/
def WrapContext.new : WrapContext := { buffer := [] }

/-- A placeholder trit sequence of length `n` standing for sponge- or
encoding-derived wire content whose exact trits the spec leaves
abstract. -/
def zeroTrits (n : Nat) : List Int := List.replicate n 0

/-- Modelled from the spec: the variable-width wire encoding of a
non-negative integer, of length `sizeof_sizet n` trits (§6). -/
def encodeSizet (n : Nat) : List Int := zeroTrits (sizeof_sizet n)

/-- Runs a spec against the Wrap context, modelled from the spec: writes
the canonical encodings of §6, mirrors the Sizeof preconditions and error
messages (§4.3), stops at the first error, treats `External` values and
`Commit` and `Fork` as writing nothing. -/
def runWrap : Spec → WrapContext → WrapContext × Option String
  | .nil, w => (w, none)
  | .seq a b, w =>
    match runWrap a w with
    | (w1, none) => runWrap b w1
    | (w1, some e) => (w1, some e)
  | .fork sub, w => runWrap sub w
  | .commit, w => (w, none)
  | .dump, w => (w, none)
  | .absorbTrint3 _, w => ({ buffer := w.buffer ++ zeroTrits 3 }, none)
  | .absorbSize v, w => ({ buffer := w.buffer ++ encodeSizet v.val }, none)
  | .absorbExternalNTrytes _, w => (w, none)
  | .absorbTrytes v, w =>
    if v.trits.size % 3 = 0 then
      ({ buffer := w.buffer ++ (encodeSizet (v.trits.size / 3) ++ v.trits.data) },
        none)
    else
      (w, some "Trit size of `trytes` must be a multiple of 3.")
  | .absorbNTrytes v, w =>
    if v.trits.size % 3 = 0 then
      ({ buffer := w.buffer ++ v.trits.data }, none)
    else
      (w, some "Trit size of `tryte [n]` must be a multiple of 3.")
  | .absorbMssPk v, w =>
    if v.trits.size = mss.PK_SIZE then
      ({ buffer := w.buffer ++ v.trits.data }, none)
    else
      (w, some "ensure failed: pk.trits().size() == mss::PK_SIZE")
  | .absorbNtruPk v, w =>
    if v.trits.size = ntru.PK_SIZE then
      ({ buffer := w.buffer ++ v.trits.data }, none)
    else
      (w, some "ensure failed: pk.trits().size() == ntru::PK_SIZE")
  | .squeezeExternalNTrytes _, w => (w, none)
  | .squeezeExternalMac _, w => (w, none)
  | .squeezeMac v, w =>
    if v.val % 3 = 0 then
      ({ buffer := w.buffer ++ zeroTrits v.val }, none)
    else
      (w, some "Trit size of `mac` must be a multiple of 3.")
  | .maskTrint3 _, w => ({ buffer := w.buffer ++ zeroTrits 3 }, none)
  | .maskSize v, w => ({ buffer := w.buffer ++ encodeSizet v.val }, none)
  | .maskNTrytes v, w =>
    ({ buffer := w.buffer ++ zeroTrits v.trits.size }, none)
  | .maskTrytes v, w =>
    if v.trits.size % 3 = 0 then
      ({ buffer := w.buffer ++ (encodeSizet (v.trits.size / 3) ++ zeroTrits v.trits.size) },
        none)
    else
      (w, some "Trit size of `trytes` must be a multiple of 3:.")
  | .maskNtruPk v, w =>
    if v.trits.size = ntru.PK_SIZE then
      ({ buffer := w.buffer ++ zeroTrits ntru.PK_SIZE }, none)
    else
      (w, some "ensure failed: ntru_pk.trits().size() == ntru::PK_SIZE")
  | .maskMssPk v, w =>
    if v.trits.size = mss.PK_SIZE then
      ({ buffer := w.buffer ++ zeroTrits mss.PK_SIZE }, none)
    else
      (w, some "ensure failed: mss_pk.trits().size() == mss::PK_SIZE")
  | .skipTrint3 _, w => ({ buffer := w.buffer ++ zeroTrits 3 }, none)
  | .skipSize v, w => ({ buffer := w.buffer ++ encodeSizet v.val }, none)
  | .skipTrytes v, w =>
    if v.trits.size % 3 = 0 then
      ({ buffer := w.buffer ++ (encodeSizet (v.trits.size / 3) ++ v.trits.data) },
        none)
    else
      (w, some "Trit size of `trytes` must be a multiple of 3.")
  | .skipNTrytes v, w =>
    if v.trits.size % 3 = 0 then
      ({ buffer := w.buffer ++ v.trits.data }, none)
    else
      (w, some "Trit size of `tryte [n]` must be a multiple of 3.")
  | .mssigExternalNTrytes sk h, w =>
    if mss.HASH_SIZE = h.val.trits.size then
      if sk.private_keys_left > 0 then
        ({ buffer := w.buffer ++ zeroTrits (mss.sig_size sk.height) }, none)
      else
        (w, some "All WOTS private keys in MSS Merkle tree have been exhausted, nothing to sign hash with.")
    else
      (w, some "Trit size of `external tryte hash[n]` to be signed with MSS must be equal mss::HASH_SIZE trits.")
  | .mssigExternalMac sk h, w =>
    if mss.HASH_SIZE = h.val.val then
      if sk.private_keys_left > 0 then
        ({ buffer := w.buffer ++ zeroTrits (mss.sig_size sk.height) }, none)
      else
        (w, some "All WOTS private keys in MSS Merkle tree have been exhausted, nothing to sign hash with.")
    else
      (w, some "Trit size of `external tryte hash[n]` to be signed with MSS must be equal mss::HASH_SIZE trits.")
  | .mssigHashSig sk _, w =>
    ({ buffer := w.buffer ++ zeroTrits (mss.sig_size sk.height) }, none)
  | .ntrukem _ s, w =>
    if ntru.KEY_SIZE = s.trits.size then
      ({ buffer := w.buffer ++ zeroTrits ntru.EKEY_SIZE }, none)
    else
      (w, some "Trit size of `external tryte secret[n]` to be encapsulated with NTRU must be equal ntru::KEY_SIZE trits.")

/-! ## Agreement between the Sizeof and Wrap passes -/

/-- For every spec, Sizeof and Wrap started from arbitrary contexts agree
on success/failure (with identical error messages) and their size deltas
coincide: the number of trits Wrap appends equals the amount Sizeof adds
to its counter. -/
theorem runWrap_agrees (spec : Spec) :
    ∀ (c : Context) (w : WrapContext),
      (runSizeof spec c).2 = (runWrap spec w).2 ∧
      (runWrap spec w).1.buffer.length + c.size =
        (runSizeof spec c).1.size + w.buffer.length := by
  induction spec with
  | seq a b iha ihb =>
    intro c w
    have ha := iha c w
    simp only [runSizeof, runWrap]
    rcases h1 : runSizeof a c with ⟨c1, e1⟩
    rcases h2 : runWrap a w with ⟨w1, f1⟩
    rw [h1, h2] at ha
    obtain ⟨he, hs⟩ := ha
    simp only at he hs
    subst he
    cases e1 with
    | none =>
      have hb := ihb c1 w1
      refine ⟨hb.1, ?_⟩
      show (runWrap b w1).1.buffer.length + c.size =
        (runSizeof b c1).1.size + w.buffer.length
      omega
    | some e =>
      refine ⟨rfl, ?_⟩
      show w1.buffer.length + c.size = c1.size + w.buffer.length
      omega
  | fork sub ih =>
    intro c w
    simpa only [runSizeof, runWrap] using ih c w
  | _ =>
    intro c w
    simp only [runSizeof, runWrap, Context.absorb_trint3, Context.absorb_size,
      Context.absorb_external_ntrytes, Context.absorb_trytes,
      Context.absorb_ntrytes, Context.absorb_mss_pk, Context.absorb_ntru_pk,
      Context.squeeze_external_ntrytes, Context.squeeze_external_mac,
      Context.squeeze_mac, Context.mask_trint3, Context.mask_size,
      Context.mask_ntrytes, Context.mask_trytes, Context.mask_ntru_pk,
      Context.mask_mss_pk, Context.skip_trint3, Context.skip_size,
      Context.skip_trytes, Context.skip_ntrytes, Context.commit,
      Context.mssig_external_ntrytes, Context.mssig_external_mac,
      Context.mssig_hashsig, Context.ntrukem, encodeSizet, zeroTrits,
      Trits.size]
    repeat' split
    all_goals simp [Trits.size]
    all_goals omega

/-! ## Claims -/

/-- C1: for every spec and every assignment of input values (embedded in
the spec tree), the total computed by the Sizeof pass (`Context::get_size`
after running the spec from `Context::new`) equals the length in trits of
the buffer the Wrap pass produces for the same spec with the same values;
moreover the two passes agree on success and failure. -/
theorem sizeof_total_eq_wrap_length (spec : Spec) :
    (runSizeof spec Context.new).2 = (runWrap spec WrapContext.new).2 ∧
    (runSizeof spec Context.new).1.get_size =
      (runWrap spec WrapContext.new).1.buffer.length := by
  have h := runWrap_agrees spec Context.new WrapContext.new
  refine ⟨h.1, ?_⟩
  have h2 := h.2
  simp only [Context.new, WrapContext.new, Context.get_size, List.length_nil] at *
  omega

/-- C2: for a Trytes value whose payload is `n` trits with `n` a multiple
of 3, Sizeof's absorb and skip both succeed and increase the size counter
by exactly `sizeof_sizet (n / 3) + n` trits (so in particular at the
boundary values `n = 0`, `n = 3` and the scale boundaries of the size
encoding, all covered by this universal statement). -/
theorem absorb_skip_trytes_size (c : Context) (t : Trytes)
    (h : t.trits.size % 3 = 0) :
    c.absorb_trytes t =
      ({ size := c.size + (sizeof_sizet (t.trits.size / 3) + t.trits.size) }, none) ∧
    c.skip_trytes t =
      ({ size := c.size + (sizeof_sizet (t.trits.size / 3) + t.trits.size) }, none) := by
  constructor <;> simp [Context.absorb_trytes, Context.skip_trytes, h]

/-- Witness for C2 at the concrete 3-trit payload `[0, 1, -1]`
(`sizeof_sizet 1 = 6`). -/
theorem absorb_skip_trytes_size_witness :
    Context.new.absorb_trytes ⟨⟨[0, 1, -1]⟩⟩ = ({ size := 9 }, none) ∧
    Context.new.skip_trytes ⟨⟨[0, 1, -1]⟩⟩ = ({ size := 9 }, none) := by
  have h := absorb_skip_trytes_size Context.new ⟨⟨[0, 1, -1]⟩⟩ (by decide)
  simpa [Context.new, Trits.size, sizeof_sizet, size_trytes, size_trytes_go] using h

/-- C3: in the Sizeof pass, absorbing or squeezing an External-wrapped
value succeeds and adds zero to the size counter, commit succeeds and adds
zero, and `fork subspec` behaves exactly as running `subspec` directly on
the same context (the fork itself contributes zero trits). -/
theorem external_commit_fork_sizeof :
    (∀ (c : Context) (v : External NTrytes), c.absorb_external_ntrytes v = (c, none)) ∧
    (∀ (c : Context) (v : External NTrytes), c.squeeze_external_ntrytes v = (c, none)) ∧
    (∀ (c : Context) (v : External Mac), c.squeeze_external_mac v = (c, none)) ∧
    (∀ c : Context, c.commit = (c, none)) ∧
    (∀ (sub : Spec) (c : Context), runSizeof (.fork sub) c = runSizeof sub c) :=
  ⟨fun _ _ => rfl, fun _ _ => rfl, fun _ _ => rfl, fun _ => rfl, fun _ _ => rfl⟩

/-- C6: for Trint3, Size, Trytes and NTrytes values, Sizeof's skip
operation is extensionally identical to Sizeof's absorb operation: same
success condition, same error, same size increment. -/
theorem skip_eq_absorb :
    (∀ (c : Context) (v : Trint3), c.skip_trint3 v = c.absorb_trint3 v) ∧
    (∀ (c : Context) (v : Size), c.skip_size v = c.absorb_size v) ∧
    (∀ (c : Context) (v : Trytes), c.skip_trytes v = c.absorb_trytes v) ∧
    (∀ (c : Context) (v : NTrytes), c.skip_ntrytes v = c.absorb_ntrytes v) :=
  ⟨fun _ _ => rfl, fun _ _ => rfl, fun _ _ => rfl, fun _ _ => rfl⟩

/-- C4 counterexample: masking an NTrytes of 1 trit — a length that is not
a multiple of 3 — succeeds (no error) and adds 1 to the size counter,
because `Mask<&NTrytes>` performs no validation; the claim that every
Sizeof operation rejects such a value is therefore false. -/
theorem mask_ntrytes_skips_validation :
    (⟨⟨[0]⟩⟩ : NTrytes).trits.size % 3 ≠ 0 ∧
    Context.new.mask_ntrytes ⟨⟨[0]⟩⟩ = ({ size := 1 }, none) := by
  decide

/-- C4 (amended): every Sizeof operation on a Trytes, NTrytes or Mac value
that validates lengths — absorb and skip on Trytes and NTrytes, mask on
Trytes, squeeze on Mac — returns an error when the trit length is not a
multiple of 3; the one exception is mask on NTrytes, which performs no
validation and always succeeds, adding the raw trit length. -/
theorem mul3_validation (c : Context) :
    (∀ t : Trytes, t.trits.size % 3 ≠ 0 →
      (c.absorb_trytes t).2.isSome ∧ (c.skip_trytes t).2.isSome ∧
        (c.mask_trytes t).2.isSome) ∧
    (∀ v : NTrytes, v.trits.size % 3 ≠ 0 →
      (c.absorb_ntrytes v).2.isSome ∧ (c.skip_ntrytes v).2.isSome) ∧
    (∀ m : Mac, m.val % 3 ≠ 0 → (c.squeeze_mac m).2.isSome) ∧
    (∀ v : NTrytes, c.mask_ntrytes v = ({ size := c.size + v.trits.size }, none)) := by
  refine ⟨fun t h => ?_, fun v h => ?_, fun m h => ?_, fun v => rfl⟩
  · simp [Context.absorb_trytes, Context.skip_trytes, Context.mask_trytes, h]
  · simp [Context.absorb_ntrytes, Context.skip_ntrytes, h]
  · simp [Context.squeeze_mac, h]

/-- Witness for C4 (amended) at a 1-trit Trytes/NTrytes and a 1-trit
Mac. -/
theorem mul3_validation_witness :
    ((Context.new.absorb_trytes ⟨⟨[0]⟩⟩).2.isSome ∧
      (Context.new.skip_trytes ⟨⟨[0]⟩⟩).2.isSome ∧
      (Context.new.mask_trytes ⟨⟨[0]⟩⟩).2.isSome) ∧
    ((Context.new.absorb_ntrytes ⟨⟨[0]⟩⟩).2.isSome ∧
      (Context.new.skip_ntrytes ⟨⟨[0]⟩⟩).2.isSome) ∧
    (Context.new.squeeze_mac ⟨1⟩).2.isSome ∧
    Context.new.mask_ntrytes ⟨⟨[0]⟩⟩ = ({ size := 1 }, none) := by
  have h := mul3_validation Context.new
  exact ⟨h.1 ⟨⟨[0]⟩⟩ (by decide), h.2.1 ⟨⟨[0]⟩⟩ (by decide),
    h.2.2.1 ⟨1⟩ (by decide), h.2.2.2 ⟨⟨[0]⟩⟩⟩

/-- C5 counterexample: the `MssHashSig` variant of the Sizeof signing call
succeeds and adds `mss::sig_size(height)` even though the private key has
zero unused one-time keys left, because this variant performs no
key-exhaustion check; the claim that every variant fails on exhaustion is
therefore false. -/
theorem mssig_hashsig_ignores_exhaustion :
    (⟨0, 2⟩ : mss.PrivateKey).private_keys_left = 0 ∧
    Context.new.mssig_hashsig ⟨0, 2⟩ ⟨⟩ = ({ size := mss.sig_size 2 }, none) := by
  exact ⟨rfl, rfl⟩

/-- C5 (amended): the `External<NTrytes>` and `External<Mac>` variants of
the Sizeof signing call, given a hash of the required `mss::HASH_SIZE`
trit length, fail with the key-exhaustion error exactly when the private
key has zero unused one-time keys left, and otherwise succeed adding
exactly `mss::sig_size(height)`; the `MssHashSig` variant performs no
key-exhaustion check and always succeeds adding `mss::sig_size(height)`. -/
theorem mssig_sizeof (c : Context) (sk : mss.PrivateKey) :
    (∀ h : External NTrytes, mss.HASH_SIZE = h.val.trits.size →
      (sk.private_keys_left = 0 →
        c.mssig_external_ntrytes sk h =
          (c, some "All WOTS private keys in MSS Merkle tree have been exhausted, nothing to sign hash with.")) ∧
      (0 < sk.private_keys_left →
        c.mssig_external_ntrytes sk h =
          ({ size := c.size + mss.sig_size sk.height }, none))) ∧
    (∀ h : External Mac, mss.HASH_SIZE = h.val.val →
      (sk.private_keys_left = 0 →
        c.mssig_external_mac sk h =
          (c, some "All WOTS private keys in MSS Merkle tree have been exhausted, nothing to sign hash with.")) ∧
      (0 < sk.private_keys_left →
        c.mssig_external_mac sk h =
          ({ size := c.size + mss.sig_size sk.height }, none))) ∧
    (∀ h : MssHashSig,
      c.mssig_hashsig sk h = ({ size := c.size + mss.sig_size sk.height }, none)) := by
  refine ⟨fun h hh => ⟨fun hz => ?_, fun hp => ?_⟩,
    fun h hh => ⟨fun hz => ?_, fun hp => ?_⟩, fun h => rfl⟩
  · simp [Context.mssig_external_ntrytes, hh, hz]
  · simp [Context.mssig_external_ntrytes, hh, hp]
  · simp [Context.mssig_external_mac, hh, hz]
  · simp [Context.mssig_external_mac, hh, hp]

/-- Witness for C5 (amended) with a 243-trit hash, an exhausted key of
height 2 and a fresh key of height 2. -/
theorem mssig_sizeof_witness :
    Context.new.mssig_external_ntrytes ⟨0, 2⟩ ⟨⟨⟨List.replicate 243 0⟩⟩⟩ =
      (Context.new, some "All WOTS private keys in MSS Merkle tree have been exhausted, nothing to sign hash with.") ∧
    Context.new.mssig_external_ntrytes ⟨5, 2⟩ ⟨⟨⟨List.replicate 243 0⟩⟩⟩ =
      ({ size := mss.sig_size 2 }, none) ∧
    Context.new.mssig_external_mac ⟨0, 2⟩ ⟨⟨243⟩⟩ =
      (Context.new, some "All WOTS private keys in MSS Merkle tree have been exhausted, nothing to sign hash with.") ∧
    Context.new.mssig_hashsig ⟨0, 2⟩ ⟨⟩ = ({ size := mss.sig_size 2 }, none) := by
  have hsz : mss.HASH_SIZE = (⟨⟨⟨List.replicate 243 0⟩⟩⟩ : External NTrytes).val.trits.size := by
    simp only [Trits.size, List.length_replicate]
    rfl
  refine ⟨?_, ?_, ?_, (mssig_sizeof Context.new ⟨0, 2⟩).2.2 ⟨⟩⟩
  · exact ((mssig_sizeof Context.new ⟨0, 2⟩).1 _ hsz).1 rfl
  · exact ((mssig_sizeof Context.new ⟨5, 2⟩).1 _ hsz).2 (by decide)
  · exact ((mssig_sizeof Context.new ⟨0, 2⟩).2.1 ⟨⟨243⟩⟩ rfl).1 rfl

/-- C7: whenever a fallible Sizeof operation returns an error (a failed
precondition check), the context — hence the size counter — is exactly
what it was before the call: validation failures never mutate the
accumulated size. -/
theorem sizeof_error_preserves_size :
    (∀ (c : Context) (v : Trytes),
      (c.absorb_trytes v).2.isSome → (c.absorb_trytes v).1 = c) ∧
    (∀ (c : Context) (v : NTrytes),
      (c.absorb_ntrytes v).2.isSome → (c.absorb_ntrytes v).1 = c) ∧
    (∀ (c : Context) (v : mss.PublicKey),
      (c.absorb_mss_pk v).2.isSome → (c.absorb_mss_pk v).1 = c) ∧
    (∀ (c : Context) (v : ntru.PublicKey),
      (c.absorb_ntru_pk v).2.isSome → (c.absorb_ntru_pk v).1 = c) ∧
    (∀ (c : Context) (v : Mac),
      (c.squeeze_mac v).2.isSome → (c.squeeze_mac v).1 = c) ∧
    (∀ (c : Context) (v : Trytes),
      (c.mask_trytes v).2.isSome → (c.mask_trytes v).1 = c) ∧
    (∀ (c : Context) (v : ntru.PublicKey),
      (c.mask_ntru_pk v).2.isSome → (c.mask_ntru_pk v).1 = c) ∧
    (∀ (c : Context) (v : mss.PublicKey),
      (c.mask_mss_pk v).2.isSome → (c.mask_mss_pk v).1 = c) ∧
    (∀ (c : Context) (v : Trytes),
      (c.skip_trytes v).2.isSome → (c.skip_trytes v).1 = c) ∧
    (∀ (c : Context) (v : NTrytes),
      (c.skip_ntrytes v).2.isSome → (c.skip_ntrytes v).1 = c) ∧
    (∀ (c : Context) (sk : mss.PrivateKey) (hsh : External NTrytes),
      (c.mssig_external_ntrytes sk hsh).2.isSome →
        (c.mssig_external_ntrytes sk hsh).1 = c) ∧
    (∀ (c : Context) (sk : mss.PrivateKey) (hsh : External Mac),
      (c.mssig_external_mac sk hsh).2.isSome →
        (c.mssig_external_mac sk hsh).1 = c) ∧
    (∀ (c : Context) (pk : ntru.PublicKey) (s : NTrytes),
      (c.ntrukem pk s).2.isSome → (c.ntrukem pk s).1 = c) := by
  refine ⟨?_, ?_, ?_, ?_, ?_, ?_, ?_, ?_, ?_, ?_, ?_, ?_, ?_⟩
  · intro c v
    simp only [Context.absorb_trytes]
    split <;> simp
  · intro c v
    simp only [Context.absorb_ntrytes]
    split <;> simp
  · intro c v
    simp only [Context.absorb_mss_pk]
    split <;> simp
  · intro c v
    simp only [Context.absorb_ntru_pk]
    split <;> simp
  · intro c v
    simp only [Context.squeeze_mac]
    split <;> simp
  · intro c v
    simp only [Context.mask_trytes, Context.mask_size]
    split <;> simp
  · intro c v
    simp only [Context.mask_ntru_pk]
    split <;> simp
  · intro c v
    simp only [Context.mask_mss_pk]
    split <;> simp
  · intro c v
    simp only [Context.skip_trytes]
    split <;> simp
  · intro c v
    simp only [Context.skip_ntrytes]
    split <;> simp
  · intro c sk hsh
    simp only [Context.mssig_external_ntrytes]
    split
    · split <;> simp
    · simp
  · intro c sk hsh
    simp only [Context.mssig_external_mac]
    split
    · split <;> simp
    · simp
  · intro c pk s
    simp only [Context.ntrukem]
    split <;> simp

set_option maxRecDepth 8192 in
/-- Witness for C7: a failed absorb of a 1-trit Trytes and a failed
signing call with an exhausted key both leave the fresh context's size
at 0. -/
theorem sizeof_error_preserves_size_witness :
    ((Context.new.absorb_trytes ⟨⟨[0]⟩⟩).2.isSome ∧
      (Context.new.absorb_trytes ⟨⟨[0]⟩⟩).1 = Context.new) ∧
    ((Context.new.mssig_external_ntrytes ⟨0, 2⟩ ⟨⟨⟨List.replicate 243 0⟩⟩⟩).2.isSome ∧
      (Context.new.mssig_external_ntrytes ⟨0, 2⟩ ⟨⟨⟨List.replicate 243 0⟩⟩⟩).1 = Context.new) := by
  have h1 : (Context.new.absorb_trytes ⟨⟨[0]⟩⟩).2.isSome := by decide
  have h2 : (Context.new.mssig_external_ntrytes ⟨0, 2⟩
      ⟨⟨⟨List.replicate 243 0⟩⟩⟩).2.isSome := by decide
  exact ⟨⟨h1, sizeof_error_preserves_size.1 Context.new ⟨⟨[0]⟩⟩ h1⟩,
    ⟨h2, sizeof_error_preserves_size.2.2.2.2.2.2.2.2.2.2.1 Context.new ⟨0, 2⟩ _ h2⟩⟩

/-- C8: the Sizeof ntrukem operation fails exactly when the secret's trit
length differs from `ntru::KEY_SIZE`, and on success adds exactly
`ntru::EKEY_SIZE` trits to the size counter, for every public key
argument. -/
theorem ntrukem_sizeof (c : Context) (pk : ntru.PublicKey) (s : NTrytes) :
    (s.trits.size = ntru.KEY_SIZE →
      c.ntrukem pk s = ({ size := c.size + ntru.EKEY_SIZE }, none)) ∧
    (s.trits.size ≠ ntru.KEY_SIZE →
      c.ntrukem pk s =
        (c, some "Trit size of `external tryte secret[n]` to be encapsulated with NTRU must be equal ntru::KEY_SIZE trits.")) := by
  constructor
  · intro h
    simp [Context.ntrukem, h]
  · intro h
    unfold Context.ntrukem
    rw [if_neg fun hh => h hh.symm]

/-- Witness for C8 at a 243-trit secret (success) and a 1-trit secret
(failure), with an empty public key in both calls. -/
theorem ntrukem_sizeof_witness :
    Context.new.ntrukem ⟨⟨[]⟩⟩ ⟨⟨List.replicate 243 0⟩⟩ =
      ({ size := ntru.EKEY_SIZE }, none) ∧
    Context.new.ntrukem ⟨⟨[]⟩⟩ ⟨⟨[0]⟩⟩ =
      (Context.new, some "Trit size of `external tryte secret[n]` to be encapsulated with NTRU must be equal ntru::KEY_SIZE trits.") := by
  have hs : (⟨⟨List.replicate 243 0⟩⟩ : NTrytes).trits.size = ntru.KEY_SIZE := by
    simp only [Trits.size, List.length_replicate]
    rfl
  exact ⟨(ntrukem_sizeof Context.new ⟨⟨[]⟩⟩ _).1 hs,
    (ntrukem_sizeof Context.new ⟨⟨[]⟩⟩ ⟨⟨[0]⟩⟩).2 (by decide)⟩

/-- C9: the size counter (a natural number, modelling the non-negative
Rust `usize`) is non-negative and non-decreasing: running any spec — in
particular any single operation — never decreases `get_size`; every
successful operation leaves it unchanged or increases it, and failed ones
leave the already-accumulated prefix intact. -/
theorem sizeof_monotone (spec : Spec) (c : Context) :
    0 ≤ (runSizeof spec c).1.get_size ∧
    c.get_size ≤ (runSizeof spec c).1.get_size := by
  refine ⟨Nat.zero_le _, ?_⟩
  induction spec generalizing c with
  | seq a b iha ihb =>
    have ha := iha c
    rcases h1 : runSizeof a c with ⟨c1, e1⟩
    rw [h1] at ha
    simp only [runSizeof, h1]
    cases e1 with
    | none =>
      show c.get_size ≤ (runSizeof b c1).1.get_size
      exact le_trans ha (ihb c1)
    | some e =>
      show c.get_size ≤ c1.get_size
      exact ha
  | fork sub ih => exact ih c
  | _ =>
    simp only [runSizeof, Context.get_size, Context.absorb_trint3,
      Context.absorb_size, Context.absorb_external_ntrytes,
      Context.absorb_trytes, Context.absorb_ntrytes, Context.absorb_mss_pk,
      Context.absorb_ntru_pk, Context.squeeze_external_ntrytes,
      Context.squeeze_external_mac, Context.squeeze_mac, Context.mask_trint3,
      Context.mask_size, Context.mask_ntrytes, Context.mask_trytes,
      Context.mask_ntru_pk, Context.mask_mss_pk, Context.skip_trint3,
      Context.skip_size, Context.skip_trytes, Context.skip_ntrytes,
      Context.commit, Context.mssig_external_ntrytes,
      Context.mssig_external_mac, Context.mssig_hashsig, Context.ntrukem]
    repeat' split
    all_goals (try simp)
    all_goals omega

/-! ## WASM binding `Address` (src/bindings/wasm/src/types/mod.rs)

Strings are modelled as lists of characters.  `Address::from_string`
indexes `link_vec[0]` and `link_vec[1]` of the Rust `split(':')` result;
an out-of-bounds index panics, modelled as `none`. -/

namespace wasm

/-- The WASM binding `Address`: a channel address id and a message id. -/
structure Address where
  addr_id : List Char
  msg_id : List Char
deriving DecidableEq

/-- Rust `str::split(':')` on a character list: the (always non-empty)
list of separator-free segments; the empty string yields one empty
segment. -/
def splitColon : List Char → List (List Char)
  | [] => [[]]
  | ch :: rest =>
    if ch = ':' then [] :: splitColon rest
    else
      match splitColon rest with
      | [] => [[ch]]
      | h :: t => (ch :: h) :: t

/-- Rust `link.strip_prefix("<").unwrap_or(&link)`: drop a leading `<` if
present, otherwise keep the string. -/
def stripLt (link : List Char) : List Char :=
  if link.head? = some '<' then link.tail else link

/-- Rust `.strip_suffix(">").unwrap_or(&link)` as applied in
`Address::from_string`: drop a trailing `>` from the `<`-stripped string
if present; note the fallback is the original `link`, not the
`<`-stripped one. -/
def stripAngles (link : List Char) : List Char :=
  if (stripLt link).getLast? = some '>' then (stripLt link).dropLast else link

/-- Rust `Address::from_string`: strip optional angle brackets, split on `:`
and take the first two segments as the two ids; indexing `link_vec[1]`
panics (here: `none`) when the split yields fewer than two segments. -/
def Address.from_string (link : List Char) : Option Address :=
  match splitColon (stripAngles link) with
  | a :: b :: _ => some { addr_id := a, msg_id := b }
  | _ => none

theorem stripLt_sublist (l : List Char) : (stripLt l).Sublist l := by
  unfold stripLt
  split
  · exact List.tail_sublist l
  · exact List.Sublist.refl l

theorem stripAngles_sublist (l : List Char) : (stripAngles l).Sublist l := by
  unfold stripAngles
  split
  · exact (List.dropLast_sublist _).trans (stripLt_sublist l)
  · exact List.Sublist.refl l

theorem splitColon_no_colon (l : List Char) (h : ∀ ch ∈ l, ch ≠ ':') :
    splitColon l = [l] := by
  induction l with
  | nil => rfl
  | cons ch rest ih =>
    have hch : ch ≠ ':' := h ch (List.mem_cons_self ch rest)
    have hr := ih fun c hc => h c (List.mem_cons_of_mem ch hc)
    simp [splitColon, hch, hr]

theorem splitColon_append (a b : List Char) (h : ∀ ch ∈ a, ch ≠ ':') :
    splitColon (a ++ ':' :: b) = a :: splitColon b := by
  induction a with
  | nil => simp [splitColon]
  | cons ch rest ih =>
    have hch : ch ≠ ':' := h ch (List.mem_cons_self ch rest)
    have hr := ih fun c hc => h c (List.mem_cons_of_mem ch hc)
    simp [splitColon, hch, hr]

/-- C10: `Address::from_string` hits an index-out-of-bounds panic
(modelled as `none`) for every input containing no `:` separator — the
optional `<`/`>` stripping cannot introduce one — and for a well-formed
`addrid:msgid` input (separator-free halves, no angle brackets to strip)
it returns the Address with exactly those two fields. -/
theorem from_string_panics_or_splits :
    (∀ link : List Char, (∀ ch ∈ link, ch ≠ ':') →
      Address.from_string link = none) ∧
    (∀ a b : List Char, (∀ ch ∈ a, ch ≠ ':') → (∀ ch ∈ b, ch ≠ ':') →
      a.head? ≠ some '<' → b.getLast? ≠ some '>' →
      Address.from_string (a ++ ':' :: b) =
        some { addr_id := a, msg_id := b }) := by
  constructor
  · intro link h
    have hs : ∀ ch ∈ stripAngles link, ch ≠ ':' := fun ch hc =>
      h ch ((stripAngles_sublist link).subset hc)
    unfold Address.from_string
    rw [splitColon_no_colon _ hs]
  · intro a b ha hb hlt hgt
    have hh : (a ++ ':' :: b).head? ≠ some '<' := by
      cases a with
      | nil =>
        intro hcon
        simp at hcon
      | cons x xs =>
        intro hcon
        exact hlt (by simpa using hcon)
    have hg : (a ++ ':' :: b).getLast? ≠ some '>' := by
      rw [List.getLast?_append_of_ne_nil _ (List.cons_ne_nil ':' b)]
      cases b with
      | nil => decide
      | cons y ys =>
        intro hcon
        rw [List.getLast?_cons_cons] at hcon
        exact hgt hcon
    have h1 : stripAngles (a ++ ':' :: b) = a ++ ':' :: b := by
      unfold stripAngles stripLt
      rw [if_neg hh]
      rw [if_neg hg]
    unfold Address.from_string
    rw [h1, splitColon_append a b ha, splitColon_no_colon b hb]

/-- Witness for C10: `"ab"` (no separator) panics; `"x:y"` yields the
address with `addr_id = "x"` and `msg_id = "y"`. -/
theorem from_string_witness :
    Address.from_string ['a', 'b'] = none ∧
    Address.from_string ['x', ':', 'y'] =
      some { addr_id := ['x'], msg_id := ['y'] } := by
  constructor
  · exact from_string_panics_or_splits.1 ['a', 'b'] (by decide)
  · exact from_string_panics_or_splits.2 ['x'] ['y'] (by decide) (by decide)
      (by decide) (by decide)

end wasm

end Streams
